import Mathlib

/-!
Shallow embedding of the offer-evaluation and load-search core of the
happy-robot-fde backend (src/backend/app/api/offers.py and
src/backend/app/api/loads.py), together with theorems settling the
frozen claims about that core.

Modelling conventions:
* Python floats holding currency amounts and scores are modelled as
  exact rationals; the literals 0.9, 0.95, 0.92, 0.89, 0.87 and 150
  become the corresponding rationals.
* Python `round(x, 2)` (banker's rounding to two decimals) is modelled
  by `round2` below, half-to-even on rationals.
* Python list indexing, which accepts negative indices and raises
  IndexError when out of range on either side, is modelled by `pyIdx`
  returning `Option`; a raised IndexError is propagated as `none`
  through `evaluate_offer`, whose result type is `Option Decision`.
* The SQLAlchemy loads table is modelled as a `List Load` in table
  order; `query.filter(...).first()` is `List.find?`, `ilike "%x%"`
  is case-insensitive substring containment, `limit n` is `List.take n`.
* Python truthiness of optional strings (`if origin:`) is `truthyS`:
  false for `None` and for the empty string.
* `list.sort(key=..., reverse=True)` is Timsort, a stable sort; it is
  modelled by the stable insertion sort `sortDesc`.
-/

namespace HappyRobot

/-- Lowercasing a string character by character, modelling `str.lower()`
on the ASCII data used by the service; the result is kept as a character
list so that every kernel computation reduces. -/
def pyLower (s : String) : List Char := s.data.map Char.toLower

/-- The needle matches at the head of the haystack. -/
def matchesAt : List Char → List Char → Bool
  | [], _ => true
  | _ :: _, [] => false
  | a :: n, b :: h => a == b && matchesAt n h

/-- The needle occurs contiguously somewhere in the haystack. -/
def containsChars (needle : List Char) : List Char → Bool
  | [] => needle.isEmpty
  | c :: t => matchesAt needle (c :: t) || containsChars needle t

/-- Python `needle in hay` over lowered character lists. -/
def pyContains (hay needle : List Char) : Bool :=
  containsChars needle hay

/-- Python truthiness of an optional string: `None` and `""` are falsy. -/
def truthyS : Option String → Bool
  | none => false
  | some s => !(s == "")

/-- Strict lexicographic order on character lists, by code point,
matching the byte-wise collation the database applies to timestamps. -/
def lexLt : List Char → List Char → Bool
  | [], [] => false
  | [], _ :: _ => true
  | _ :: _, [] => false
  | a :: as, b :: bs => decide (a < b) || (a == b && lexLt as bs)

/-- Lexicographic `a <= b` on strings. -/
def strLe (a b : String) : Bool := !(lexLt b.data a.data)

/-- Round a rational to the nearest integer, ties to even, modelling the
rounding mode of Python round. -/
def roundHalfEven (q : ℚ) : ℤ :=
  let n := ⌊q⌋
  if q - n < 1/2 then n
  else if 1/2 < q - n then n + 1
  else if 2 ∣ n then n else n + 1

/-- Python `round(x, 2)`: round to two decimal places, ties to even. -/
def round2 (q : ℚ) : ℚ := (roundHalfEven (q * 100) : ℚ) / 100

/-- Python list indexing: nonnegative indices from the front, negative
indices from the back, `none` when out of range (IndexError). -/
def pyIdx {α : Type} (xs : List α) (i : ℤ) : Option α :=
  if 0 ≤ i then xs.get? i.toNat
  else if i.natAbs ≤ xs.length then xs.get? (xs.length - i.natAbs)
  else none

/-- A row of the loads table (src/backend/app/api/db_models.py). -/
structure Load where
  load_id : String
  origin : String
  destination : String
  pickup_datetime : String
  delivery_datetime : String
  equipment_type : String
  loadboard_rate : ℚ
  notes : Option String := none
  weight : Option ℚ := none
  commodity_type : Option String := none
  num_of_pieces : Option ℤ := none
  miles : Option ℚ := none
  dimensions : Option String := none
  status : String := "available"
deriving DecidableEq

/-- The reason strings produced by evaluate_offer, one constructor per
template; `belowFloor` and `counterOffer` carry the rational that the
f-string formats to two decimals. -/
inductive Reason where
  | notFound
  | belowFloor (floor : ℚ)
  | accepted
  | counterOffer (amount : ℚ)
deriving DecidableEq

/-- The dictionary returned by evaluate_offer: decision string, optional
rate, floor price and reason. -/
structure Decision where
  decision : String
  rate : Option ℚ
  floor : ℚ
  reason : Reason
deriving DecidableEq

/-- db.query(Load).filter(Load.load_id == load_id).first() on the table. -/
def findLoad (db : List Load) (load_id : String) : Option Load :=
  db.find? (fun l => l.load_id == load_id)

/-- floor_price = max(loadboard_rate * 0.9, loadboard_rate - 150). -/
def floorPrice (loadboard_rate : ℚ) : ℚ :=
  max (loadboard_rate * (9/10)) (loadboard_rate - 150)

/-- carrier_offer = negotiated_rate if negotiated_rate is not None else
initial_rate. -/
def effectiveOffer (initial_rate : ℚ) : Option ℚ → ℚ
  | some r => r
  | none => initial_rate

/-- counter_multipliers = [0.92, 0.89, 0.87]. -/
def counter_multipliers : List ℚ := [92/100, 89/100, 87/100]

/-- Body of evaluate_offer after the load lookup has produced a rate
(offers.py lines 30-77); `none` models a raised IndexError. -/
def evaluateWithRate (loadboard_rate initial_rate : ℚ)
    (negotiated_rate : Option ℚ) (negotiation_rounds : Option ℤ) :
    Option Decision :=
  if effectiveOffer initial_rate negotiated_rate < floorPrice loadboard_rate then
    some ⟨"reject", none, floorPrice loadboard_rate,
      .belowFloor (floorPrice loadboard_rate)⟩
  else if loadboard_rate * (95/100) ≤ effectiveOffer initial_rate negotiated_rate then
    some ⟨"accept", some (effectiveOffer initial_rate negotiated_rate),
      floorPrice loadboard_rate, .accepted⟩
  else
    match negotiation_rounds with
    | some r =>
      if r ≤ 3 then
        match pyIdx counter_multipliers (min (r - 1) 2) with
        | some m =>
          some ⟨"counter", some (round2 (max (loadboard_rate * m) (floorPrice loadboard_rate))),
            floorPrice loadboard_rate,
            .counterOffer (max (loadboard_rate * m) (floorPrice loadboard_rate))⟩
        | none => none
      else
        some ⟨"counter",
          some (round2 (max (loadboard_rate * (9/10)) (floorPrice loadboard_rate))),
          floorPrice loadboard_rate,
          .counterOffer (max (loadboard_rate * (9/10)) (floorPrice loadboard_rate))⟩
    | none =>
      some ⟨"counter",
        some (round2 (max (loadboard_rate * (9/10)) (floorPrice loadboard_rate))),
        floorPrice loadboard_rate,
        .counterOffer (max (loadboard_rate * (9/10)) (floorPrice loadboard_rate))⟩

/-- evaluate_offer from src/backend/app/api/offers.py: resolve the load,
then apply the negotiation rules to its loadboard rate. -/
def evaluate_offer (db : List Load) (load_id : String) (initial_rate : ℚ)
    (negotiated_rate : Option ℚ) (negotiation_rounds : Option ℤ) :
    Option Decision :=
  match findLoad db load_id with
  | none => some ⟨"reject", none, 0, .notFound⟩
  | some load =>
    evaluateWithRate load.loadboard_rate initial_rate negotiated_rate
      negotiation_rounds

/-- calculate_match_score from src/backend/app/api/loads.py. -/
def calculate_match_score (load : Load)
    (origin destination equipment_type : Option String) : ℚ :=
  let score : ℚ := 0
  let score :=
    if truthyS equipment_type
        && (pyLower load.equipment_type == pyLower (equipment_type.getD "")) then
      score + 100
    else if truthyS equipment_type
        && pyContains (pyLower load.equipment_type) (pyLower (equipment_type.getD "")) then
      score + 50
    else score
  let score :=
    if truthyS origin && pyContains (pyLower load.origin) (pyLower (origin.getD "")) then
      score + 30
    else score
  let score :=
    if truthyS destination
        && pyContains (pyLower load.destination) (pyLower (destination.getD "")) then
      score + 30
    else score
  score + 10

/-- The SQL filters of search_loads: status must be available, optional
case-insensitive substring filters, optional lexical pickup bounds. -/
def passesFilters (l : Load) (origin destination equipment_type
    pickup_from pickup_to : Option String) : Bool :=
  (l.status == "available")
  && (if truthyS origin then
        pyContains (pyLower l.origin) (pyLower (origin.getD "")) else true)
  && (if truthyS destination then
        pyContains (pyLower l.destination) (pyLower (destination.getD "")) else true)
  && (if truthyS equipment_type then
        pyContains (pyLower l.equipment_type) (pyLower (equipment_type.getD "")) else true)
  && (if truthyS pickup_from then
        strLe (pickup_from.getD "") l.pickup_datetime else true)
  && (if truthyS pickup_to then
        strLe l.pickup_datetime (pickup_to.getD "") else true)

/-- A search result row paired with its match score (LoadSearchResponse
copies the load fields verbatim and adds the score). -/
structure ScoredLoad where
  load : Load
  score : ℚ
deriving DecidableEq

/-- The candidate rows of search_loads: SQL filters, `limit(max_results*2)`,
scoring, and the positive-score filter. -/
def scoredCandidates (db : List Load) (origin destination equipment_type
    pickup_from pickup_to : Option String) (max_results : ℕ) :
    List ScoredLoad :=
  (((db.filter (fun l =>
      passesFilters l origin destination equipment_type pickup_from pickup_to)).take
        (max_results * 2)).map
    (fun l => ⟨l, calculate_match_score l origin destination equipment_type⟩)).filter
    (fun sl => decide ((0 : ℚ) < sl.score))

/-- Insert an element into a descending-sorted list, after every element
of strictly greater score and before the rest; the building block of the
stable descending sort. -/
def insertDesc (x : ScoredLoad) : List ScoredLoad → List ScoredLoad
  | [] => [x]
  | y :: ys => if x.score < y.score then y :: insertDesc x ys else x :: y :: ys

/-- Stable sort by descending score, modelling
`results.sort(key=lambda x: x.score, reverse=True)`. -/
def sortDesc : List ScoredLoad → List ScoredLoad
  | [] => []
  | x :: xs => insertDesc x (sortDesc xs)

/-- The sorted, untruncated result list of search_loads. -/
def searchSorted (db : List Load) (origin destination equipment_type
    pickup_from pickup_to : Option String) (max_results : ℕ) :
    List ScoredLoad :=
  sortDesc (scoredCandidates db origin destination equipment_type
    pickup_from pickup_to max_results)

/-- search_loads from src/backend/app/api/loads.py: filter, over-fetch,
score, sort descending, truncate to max_results. -/
def search_loads (db : List Load) (origin destination equipment_type
    pickup_from pickup_to : Option String) (max_results : ℕ) :
    List ScoredLoad :=
  (searchSorted db origin destination equipment_type pickup_from pickup_to
    max_results).take max_results

/-- Descending order by score, pairwise. -/
def SortedDesc (l : List ScoredLoad) : Prop :=
  List.Pairwise (fun a b => b.score ≤ a.score) l

/-! Branch lemmas for the negotiation policy. -/

theorem evaluate_offer_found {db : List Load} {lid : String} {load : Load}
    (init : ℚ) (neg : Option ℚ) (rounds : Option ℤ)
    (h : findLoad db lid = some load) :
    evaluate_offer db lid init neg rounds =
      evaluateWithRate load.loadboard_rate init neg rounds := by
  unfold evaluate_offer
  rw [h]

theorem evaluateWithRate_below {R init : ℚ} {neg : Option ℚ}
    (rounds : Option ℤ) (h : effectiveOffer init neg < floorPrice R) :
    evaluateWithRate R init neg rounds =
      some ⟨"reject", none, floorPrice R, .belowFloor (floorPrice R)⟩ := by
  unfold evaluateWithRate
  rw [if_pos h]

theorem evaluateWithRate_accept {R init : ℚ} {neg : Option ℚ}
    (rounds : Option ℤ) (h1 : ¬ effectiveOffer init neg < floorPrice R)
    (h2 : R * (95/100) ≤ effectiveOffer init neg) :
    evaluateWithRate R init neg rounds =
      some ⟨"accept", some (effectiveOffer init neg), floorPrice R, .accepted⟩ := by
  unfold evaluateWithRate
  rw [if_neg h1, if_pos h2]

theorem evaluateWithRate_table {R init : ℚ} {neg : Option ℚ} {r : ℤ} {m : ℚ}
    (h1 : ¬ effectiveOffer init neg < floorPrice R)
    (h2 : ¬ R * (95/100) ≤ effectiveOffer init neg)
    (h3 : r ≤ 3) (h4 : pyIdx counter_multipliers (min (r - 1) 2) = some m) :
    evaluateWithRate R init neg (some r) =
      some ⟨"counter", some (round2 (max (R * m) (floorPrice R))), floorPrice R,
        .counterOffer (max (R * m) (floorPrice R))⟩ := by
  unfold evaluateWithRate
  rw [if_neg h1, if_neg h2]
  simp only [if_pos h3, h4]

theorem evaluateWithRate_raise {R init : ℚ} {neg : Option ℚ} {r : ℤ}
    (h1 : ¬ effectiveOffer init neg < floorPrice R)
    (h2 : ¬ R * (95/100) ≤ effectiveOffer init neg)
    (h3 : r ≤ 3) (h4 : pyIdx counter_multipliers (min (r - 1) 2) = none) :
    evaluateWithRate R init neg (some r) = none := by
  unfold evaluateWithRate
  rw [if_neg h1, if_neg h2]
  simp only [if_pos h3, h4]

theorem evaluateWithRate_default_none {R init : ℚ} {neg : Option ℚ}
    (h1 : ¬ effectiveOffer init neg < floorPrice R)
    (h2 : ¬ R * (95/100) ≤ effectiveOffer init neg) :
    evaluateWithRate R init neg none =
      some ⟨"counter", some (round2 (max (R * (9/10)) (floorPrice R))), floorPrice R,
        .counterOffer (max (R * (9/10)) (floorPrice R))⟩ := by
  unfold evaluateWithRate
  rw [if_neg h1, if_neg h2]

theorem evaluateWithRate_default_late {R init : ℚ} {neg : Option ℚ} {r : ℤ}
    (h1 : ¬ effectiveOffer init neg < floorPrice R)
    (h2 : ¬ R * (95/100) ≤ effectiveOffer init neg) (h3 : ¬ r ≤ 3) :
    evaluateWithRate R init neg (some r) =
      some ⟨"counter", some (round2 (max (R * (9/10)) (floorPrice R))), floorPrice R,
        .counterOffer (max (R * (9/10)) (floorPrice R))⟩ := by
  unfold evaluateWithRate
  rw [if_neg h1, if_neg h2]
  simp only [if_neg h3]

theorem floor_of_evaluateWithRate {R init : ℚ} {neg : Option ℚ}
    {rounds : Option ℤ} {d : Decision}
    (h : evaluateWithRate R init neg rounds = some d) :
    d.floor = floorPrice R := by
  unfold evaluateWithRate at h
  repeat' split at h
  all_goals first
  | (cases h; rfl)
  | cases h

/-- round2 is the identity on integral rationals. -/
theorem round2_intCast (n : ℤ) : round2 (n : ℚ) = n := by
  unfold round2 roundHalfEven
  have h1 : ((n : ℚ) * 100) = ((n * 100 : ℤ) : ℚ) := by push_cast; ring
  rw [h1, Int.floor_intCast]
  have h2 : ((n * 100 : ℤ) : ℚ) - ((n * 100 : ℤ) : ℚ) < 1/2 := by norm_num
  rw [if_pos h2]
  push_cast
  field_simp

/-! The stable descending sort and its properties. -/

theorem mem_insertDesc {z x : ScoredLoad} {l : List ScoredLoad} :
    z ∈ insertDesc x l ↔ z = x ∨ z ∈ l := by
  induction l with
  | nil => simp [insertDesc]
  | cons y ys ih =>
    unfold insertDesc
    split
    · simp only [List.mem_cons, ih]
      tauto
    · simp only [List.mem_cons]

theorem insertDesc_sorted {x : ScoredLoad} {l : List ScoredLoad}
    (h : SortedDesc l) : SortedDesc (insertDesc x l) := by
  induction l with
  | nil => simp [insertDesc, SortedDesc]
  | cons y ys ih =>
    rcases List.pairwise_cons.mp h with ⟨hy, hys⟩
    unfold insertDesc
    split
    · rename_i hxy
      refine List.pairwise_cons.mpr ⟨?_, ih hys⟩
      intro z hz
      rcases mem_insertDesc.mp hz with hzx | hzl
      · exact hzx ▸ le_of_lt hxy
      · exact hy z hzl
    · rename_i hxy
      refine List.pairwise_cons.mpr ⟨?_, h⟩
      intro z hz
      rcases List.mem_cons.mp hz with hzy | hzl
      · exact hzy ▸ not_lt.mp hxy
      · exact le_trans (hy z hzl) (not_lt.mp hxy)

theorem sortDesc_sorted (l : List ScoredLoad) : SortedDesc (sortDesc l) := by
  induction l with
  | nil => simp [sortDesc, SortedDesc]
  | cons x xs ih => exact insertDesc_sorted ih

theorem mem_sortDesc {z : ScoredLoad} {l : List ScoredLoad} :
    z ∈ sortDesc l ↔ z ∈ l := by
  induction l with
  | nil => simp [sortDesc]
  | cons x xs ih =>
    unfold sortDesc
    rw [mem_insertDesc, ih, List.mem_cons]

theorem filter_insertDesc (x : ScoredLoad) (l : List ScoredLoad) (s : ℚ) :
    (insertDesc x l).filter (fun y => y.score == s) =
      if x.score = s then x :: l.filter (fun y => y.score == s)
      else l.filter (fun y => y.score == s) := by
  induction l with
  | nil =>
    unfold insertDesc
    by_cases hx : x.score = s
    · rw [if_pos hx]
      simp [List.filter_cons, beq_iff_eq, hx]
    · rw [if_neg hx]
      simp [List.filter_cons, beq_iff_eq, hx]
  | cons y ys ih =>
    unfold insertDesc
    split
    · rename_i hxy
      by_cases hx : x.score = s
      · have hy : ¬ (y.score = s) := by
          intro hys
          rw [hx] at hxy
          rw [hys] at hxy
          exact lt_irrefl s hxy
        rw [if_pos hx]
        simp only [List.filter_cons]
        rw [show (y.score == s) = false from beq_eq_false_iff_ne.mpr hy]
        simp only [Bool.false_eq_true, if_false]
        rw [ih, if_pos hx]
      · rw [if_neg hx]
        simp only [List.filter_cons]
        rw [ih, if_neg hx]
    · simp only [List.filter_cons]
      by_cases hx : x.score = s
      · rw [if_pos hx]
        rw [show (x.score == s) = true from beq_iff_eq.mpr hx]
        simp
      · rw [if_neg hx]
        rw [show (x.score == s) = false from beq_eq_false_iff_ne.mpr hx]
        simp

theorem filter_sortDesc (l : List ScoredLoad) (s : ℚ) :
    (sortDesc l).filter (fun y => y.score == s) =
      l.filter (fun y => y.score == s) := by
  induction l with
  | nil => rfl
  | cons x xs ih =>
    unfold sortDesc
    rw [filter_insertDesc]
    by_cases hx : x.score = s
    · rw [if_pos hx, ih]
      simp only [List.filter_cons]
      rw [show (x.score == s) = true from beq_iff_eq.mpr hx]
      simp
    · rw [if_neg hx, ih]
      simp only [List.filter_cons]
      rw [show (x.score == s) = false from beq_eq_false_iff_ne.mpr hx]
      simp

theorem insertDesc_of_forall_le {x : ScoredLoad} {l : List ScoredLoad}
    (h : ∀ y ∈ l, y.score ≤ x.score) : insertDesc x l = x :: l := by
  cases l with
  | nil => rfl
  | cons y ys =>
    unfold insertDesc
    rw [if_neg (not_lt.mpr (h y (List.mem_cons_self y ys)))]

theorem sortDesc_const {c : ℚ} {l : List ScoredLoad}
    (h : ∀ y ∈ l, y.score = c) : sortDesc l = l := by
  induction l with
  | nil => rfl
  | cons x xs ih =>
    unfold sortDesc
    rw [ih (fun y hy => h y (List.mem_cons_of_mem x hy))]
    refine insertDesc_of_forall_le ?_
    intro y hy
    rw [h y (List.mem_cons_of_mem x hy), h x (List.mem_cons_self x xs)]

/-! Further computation facts used by the concrete instantiations. -/

theorem evaluate_offer_none {db : List Load} {lid : String}
    (init : ℚ) (neg : Option ℚ) (rounds : Option ℤ)
    (h : findLoad db lid = none) :
    evaluate_offer db lid init neg rounds =
      some ⟨"reject", none, 0, .notFound⟩ := by
  unfold evaluate_offer
  rw [h]

theorem floorPrice_1000 : floorPrice (1000 : ℚ) = 900 := by
  unfold floorPrice
  rw [max_eq_left (by norm_num)]
  norm_num

theorem floorPrice_4000 : floorPrice (4000 : ℚ) = 3850 := by
  unfold floorPrice
  rw [max_eq_right (by norm_num)]
  norm_num

theorem floorPrice_10000 : floorPrice (10000 : ℚ) = 9850 := by
  unfold floorPrice
  rw [max_eq_right (by norm_num)]
  norm_num

theorem round2_920 : round2 (920 : ℚ) = 920 := by
  have h := round2_intCast 920
  push_cast at h
  exact h

theorem round2_900 : round2 (900 : ℚ) = 900 := by
  have h := round2_intCast 900
  push_cast at h
  exact h

theorem score_none (l : Load) : calculate_match_score l none none none = 10 := by
  simp [calculate_match_score, truthyS]

theorem pyIdx_out_of_range {i : ℤ} (h : i ≤ -4) :
    pyIdx counter_multipliers i = none := by
  have h1 : ¬ (0 : ℤ) ≤ i := by omega
  have h2 : ¬ i.natAbs ≤ ([92/100, 89/100, 87/100] : List ℚ).length := by
    simp only [List.length_cons, List.length_nil]
    omega
  unfold pyIdx counter_multipliers
  rw [if_neg h1, if_neg h2]

/-! Concrete fixtures: a small loads table used to instantiate the
universally quantified theorems below. -/

def loadA : Load :=
  { load_id := "A", origin := "Chicago, IL", destination := "Dallas, TX",
    pickup_datetime := "2024-06-01T08:00:00",
    delivery_datetime := "2024-06-02T17:00:00",
    equipment_type := "Dry Van", loadboard_rate := 1000 }

def loadB : Load :=
  { load_id := "B", origin := "Seattle, WA", destination := "Boston, MA",
    pickup_datetime := "2024-06-03T08:00:00",
    delivery_datetime := "2024-06-07T17:00:00",
    equipment_type := "Flatbed", loadboard_rate := 10000 }

def loadC : Load :=
  { load_id := "C", origin := "Atlanta, GA", destination := "Miami, FL",
    pickup_datetime := "2024-06-04T08:00:00",
    delivery_datetime := "2024-06-05T17:00:00",
    equipment_type := "Reefer", loadboard_rate := 4000 }

def loadD : Load :=
  { load_id := "D", origin := "Denver, CO", destination := "Phoenix, AZ",
    pickup_datetime := "2024-06-06T08:00:00",
    delivery_datetime := "2024-06-07T17:00:00",
    equipment_type := "Reefer", loadboard_rate := 1000 }

def loadE : Load :=
  { load_id := "E", origin := "Tampa, FL", destination := "Austin, TX",
    pickup_datetime := "2024-06-08T08:00:00",
    delivery_datetime := "2024-06-09T17:00:00",
    equipment_type := "Dry Van", loadboard_rate := 1200,
    status := "booked" }

def dbA : List Load := [loadA]
def dbB : List Load := [loadB]
def dbC : List Load := [loadC]
def dbD : List Load := [loadD]
def dbE : List Load := [loadE]

/-! Claim theorems. -/

/-- C1: for every load found by identifier whose reference rate R is
positive, any Decision returned by evaluate_offer carries the floor
price max(R * 0.9, R - 150), and this floor is at most R. -/
theorem claim_C1_floor_formula (db : List Load) (lid : String) (init : ℚ)
    (neg : Option ℚ) (rounds : Option ℤ) (load : Load) (d : Decision)
    (hfind : findLoad db lid = some load)
    (hpos : 0 < load.loadboard_rate)
    (heval : evaluate_offer db lid init neg rounds = some d) :
    d.floor = max (load.loadboard_rate * (9/10)) (load.loadboard_rate - 150)
      ∧ d.floor ≤ load.loadboard_rate := by
  rw [evaluate_offer_found init neg rounds hfind] at heval
  have h1 : d.floor = floorPrice load.loadboard_rate :=
    floor_of_evaluateWithRate heval
  refine ⟨h1, ?_⟩
  rw [h1]
  unfold floorPrice
  apply max_le
  · linarith
  · linarith

/-- C1 witness: the load with rate 1000, offer 950: the returned floor is
900 = max(900, 850) and 900 <= 1000. -/
theorem claim_C1_floor_formula_witness :
    (Decision.mk "accept" (some 950) 900 .accepted).floor
        = max ((1000 : ℚ) * (9/10)) ((1000 : ℚ) - 150)
      ∧ (Decision.mk "accept" (some 950) 900 .accepted).floor ≤ (1000 : ℚ) := by
  have heval : evaluate_offer dbA "A" 950 none none
      = some (Decision.mk "accept" (some 950) 900 .accepted) := by
    rw [evaluate_offer_found 950 none none
      (show findLoad dbA "A" = some loadA from rfl)]
    show evaluateWithRate 1000 950 none none = _
    rw [evaluateWithRate_accept none
      (by simp only [effectiveOffer, floorPrice_1000]; norm_num)
      (by simp only [effectiveOffer]; norm_num)]
    simp only [effectiveOffer, floorPrice_1000]
  exact claim_C1_floor_formula dbA "A" 950 none none loadA _ rfl
    (show (0 : ℚ) < 1000 by norm_num) heval

/-- C5: for every load identifier absent from the repository,
evaluate_offer returns (it does not raise) the Decision reject with rate
null, floor 0 and the not-found reason, the same record shape a policy
rejection uses. -/
theorem claim_C5_not_found (db : List Load) (lid : String) (init : ℚ)
    (neg : Option ℚ) (rounds : Option ℤ)
    (h : findLoad db lid = none) :
    evaluate_offer db lid init neg rounds =
      some ⟨"reject", none, 0, .notFound⟩ :=
  evaluate_offer_none init neg rounds h

/-- C5 witness: identifier Z does not occur in the one-load table. -/
theorem claim_C5_not_found_witness :
    evaluate_offer dbA "Z" 500 none none =
      some ⟨"reject", none, 0, .notFound⟩ :=
  claim_C5_not_found dbA "Z" 500 none none rfl

/-- C8: evaluate_offer is deterministic and depends only on the reference
rate of the resolved load and the offer context: two repositories whose
lookups produce the same rate give identical Decisions. -/
theorem claim_C8_deterministic (dbx dby : List Load) (lidx lidy : String)
    (init : ℚ) (neg : Option ℚ) (rounds : Option ℤ)
    (h : (findLoad dbx lidx).map Load.loadboard_rate
        = (findLoad dby lidy).map Load.loadboard_rate) :
    evaluate_offer dbx lidx init neg rounds
      = evaluate_offer dby lidy init neg rounds := by
  cases hx : findLoad dbx lidx with
  | none =>
    cases hy : findLoad dby lidy with
    | none =>
      rw [evaluate_offer_none init neg rounds hx,
        evaluate_offer_none init neg rounds hy]
    | some ly =>
      rw [hx, hy] at h
      simp at h
  | some lx =>
    cases hy : findLoad dby lidy with
    | none =>
      rw [hx, hy] at h
      simp at h
    | some ly =>
      rw [hx, hy] at h
      simp only [Option.map_some', Option.some.injEq] at h
      rw [evaluate_offer_found init neg rounds hx,
        evaluate_offer_found init neg rounds hy, h]

/-- C8 witness: two different one-load repositories whose loads share the
rate 1000 but differ in every other field produce the same Decision. -/
theorem claim_C8_deterministic_witness :
    evaluate_offer dbA "A" 950 none none
      = evaluate_offer dbD "D" 950 none none :=
  claim_C8_deterministic dbA dbD "A" "D" 950 none none rfl

/-- C2 counterexample: with reference rate 10000 the floor is 9850, which
exceeds 0.95 x rate = 9500; the offer 9600 satisfies the 95 percent
acceptance condition of the claim yet the code rejects it with rate null,
because the floor check runs first. -/
theorem claim_C2_counterexample :
    evaluate_offer dbB "B" 9600 none none
      = some ⟨"reject", none, 9850, .belowFloor 9850⟩
    ∧ (10000 : ℚ) * (95/100) ≤ 9600
    ∧ ("reject" : String) ≠ "accept" := by
  refine ⟨?_, by norm_num, by decide⟩
  rw [evaluate_offer_found 9600 none none
    (show findLoad dbB "B" = some loadB from rfl)]
  show evaluateWithRate 10000 9600 none none = _
  rw [evaluateWithRate_below none
    (by simp only [effectiveOffer, floorPrice_10000]; norm_num)]
  simp only [floorPrice_10000]

/-- C2 amended: for every load found by identifier, reading the branch
conditions in the order of the code: an offer strictly below the floor is
rejected with rate null; an offer at or above the floor and at or above
0.95 x rate is accepted at the offer; and an offer exactly at the floor is
never rejected (the floor boundary is inclusive). -/
theorem claim_C2_amended (db : List Load) (lid : String) (init : ℚ)
    (neg : Option ℚ) (rounds : Option ℤ) (load : Load) (d : Decision)
    (hfind : findLoad db lid = some load) :
    (effectiveOffer init neg < floorPrice load.loadboard_rate →
      evaluate_offer db lid init neg rounds
        = some ⟨"reject", none, floorPrice load.loadboard_rate,
            .belowFloor (floorPrice load.loadboard_rate)⟩)
    ∧ (floorPrice load.loadboard_rate ≤ effectiveOffer init neg →
        load.loadboard_rate * (95/100) ≤ effectiveOffer init neg →
        evaluate_offer db lid init neg rounds
          = some ⟨"accept", some (effectiveOffer init neg),
              floorPrice load.loadboard_rate, .accepted⟩)
    ∧ (effectiveOffer init neg = floorPrice load.loadboard_rate →
        evaluate_offer db lid init neg rounds = some d →
        d.decision ≠ "reject") := by
  rw [evaluate_offer_found init neg rounds hfind]
  refine ⟨?_, ?_, ?_⟩
  · intro h
    exact evaluateWithRate_below rounds h
  · intro h1 h2
    exact evaluateWithRate_accept rounds (not_lt.mpr h1) h2
  · intro heq hres
    have hnlt : ¬ effectiveOffer init neg < floorPrice load.loadboard_rate := by
      rw [heq]
      exact lt_irrefl _
    by_cases hacc : load.loadboard_rate * (95/100) ≤ effectiveOffer init neg
    · rw [evaluateWithRate_accept rounds hnlt hacc] at hres
      cases hres
      exact (show ("accept" : String) ≠ "reject" from by decide)
    · cases rounds with
      | none =>
        rw [evaluateWithRate_default_none hnlt hacc] at hres
        cases hres
        exact (show ("counter" : String) ≠ "reject" from by decide)
      | some r =>
        by_cases hr : r ≤ 3
        · cases hpy : pyIdx counter_multipliers (min (r - 1) 2) with
          | none =>
            rw [evaluateWithRate_raise hnlt hacc hr hpy] at hres
            cases hres
          | some mm =>
            rw [evaluateWithRate_table hnlt hacc hr hpy] at hres
            cases hres
            exact (show ("counter" : String) ≠ "reject" from by decide)
        · rw [evaluateWithRate_default_late hnlt hacc hr] at hres
          cases hres
          exact (show ("counter" : String) ≠ "reject" from by decide)

/-- C2 witness: rate 4000 gives floor 3850 and threshold 3800; the offer
3850 sits exactly at the floor, is accepted at the offer value, and the
decision is not a rejection. -/
theorem claim_C2_amended_witness :
    evaluate_offer dbC "C" 3850 none none
      = some ⟨"accept", some 3850, 3850, .accepted⟩
    ∧ (Decision.mk "accept" (some 3850) 3850 .accepted).decision
        ≠ "reject" := by
  obtain ⟨h1, h2, h3⟩ := claim_C2_amended dbC "C" 3850 none none loadC
    (Decision.mk "accept" (some 3850) 3850 .accepted) rfl
  have hfp : floorPrice loadC.loadboard_rate = 3850 := floorPrice_4000
  have hacc : evaluate_offer dbC "C" 3850 none none
      = some (Decision.mk "accept" (some 3850) 3850 .accepted) := by
    have h := h2 (by rw [hfp]; simp only [effectiveOffer]; norm_num)
      (by simp only [effectiveOffer]; show (4000 : ℚ) * (95/100) ≤ 3850; norm_num)
    rw [hfp] at h
    exact h
  refine ⟨hacc, h3 ?_ hacc⟩
  rw [hfp]
  simp only [effectiveOffer]

/-- C4 counterexample: rate 1000, offer 920 in the counter range, round
counter absent: the code takes the default branch and proposes
max(0.90 x 1000, floor) = 900, not the 0.92 x 1000 = 920 the claim
predicts. -/
theorem claim_C4_counterexample :
    evaluate_offer dbA "A" 920 none none
      = some ⟨"counter", some 900, 900, .counterOffer 900⟩
    ∧ round2 (max ((1000 : ℚ) * (92/100)) (floorPrice 1000)) = 920
    ∧ (900 : ℚ) ≠ 920 := by
  refine ⟨?_, ?_, by norm_num⟩
  · rw [evaluate_offer_found 920 none none
      (show findLoad dbA "A" = some loadA from rfl)]
    show evaluateWithRate 1000 920 none none = _
    rw [evaluateWithRate_default_none
      (by simp only [effectiveOffer, floorPrice_1000]; norm_num)
      (by simp only [effectiveOffer]; norm_num)]
    have hm : max ((1000 : ℚ) * (9/10)) (floorPrice 1000) = 900 := by
      rw [floorPrice_1000, max_eq_right (by norm_num)]
    rw [hm, floorPrice_1000, round2_900]
  · rw [floorPrice_1000, max_eq_left (by norm_num),
      show (1000 : ℚ) * (92/100) = 920 by norm_num, round2_920]

/-- C4 amended: when the round counter is absent and the effective offer
lies in the counter range, evaluate_offer takes the default branch and
counters with max(rate x 0.90, floor) rounded to cents, which equals the
floor price itself, not rate x 0.92. -/
theorem claim_C4_amended (db : List Load) (lid : String) (init : ℚ)
    (neg : Option ℚ) (load : Load)
    (hfind : findLoad db lid = some load)
    (hlo : floorPrice load.loadboard_rate ≤ effectiveOffer init neg)
    (hhi : effectiveOffer init neg < load.loadboard_rate * (95/100)) :
    evaluate_offer db lid init neg none
      = some ⟨"counter",
          some (round2 (max (load.loadboard_rate * (9/10))
            (floorPrice load.loadboard_rate))),
          floorPrice load.loadboard_rate,
          .counterOffer (max (load.loadboard_rate * (9/10))
            (floorPrice load.loadboard_rate))⟩
    ∧ max (load.loadboard_rate * (9/10)) (floorPrice load.loadboard_rate)
        = floorPrice load.loadboard_rate := by
  rw [evaluate_offer_found init neg none hfind]
  refine ⟨evaluateWithRate_default_none (not_lt.mpr hlo) (not_le.mpr hhi), ?_⟩
  refine max_eq_right ?_
  unfold floorPrice
  exact le_max_left _ _

/-- C4 witness: rate 1000, offer 910 in the counter range, rounds absent:
the counter equals the floor 900. -/
theorem claim_C4_amended_witness :
    evaluate_offer dbA "A" 910 none none
      = some ⟨"counter", some 900, 900, .counterOffer 900⟩ := by
  have hfp : floorPrice loadA.loadboard_rate = 900 := floorPrice_1000
  obtain ⟨h1, h2⟩ := claim_C4_amended dbA "A" 910 none loadA rfl
    (by rw [hfp]; simp only [effectiveOffer]; norm_num)
    (by simp only [effectiveOffer]; show (910 : ℚ) < 1000 * (95/100); norm_num)
  rw [h2, hfp, round2_900] at h1
  exact h1

/-- C10 counterexample: rate 1000, offer 920 in the counter range, round
counter -3 (admitted by the gate since -3 <= 3): the table index
min(-3 - 1, 2) = -4 is out of range even for negative indexing, so the
evaluation raises IndexError instead of returning a Decision. -/
theorem claim_C10_counterexample :
    evaluate_offer dbA "A" 920 none (some (-3)) = none
    ∧ ((-3 : ℤ) ≤ 3)
    ∧ floorPrice 1000 ≤ 920
    ∧ (920 : ℚ) < 1000 * (95/100) := by
  refine ⟨?_, by decide, by rw [floorPrice_1000]; norm_num, by norm_num⟩
  rw [evaluate_offer_found 920 none (some (-3))
    (show findLoad dbA "A" = some loadA from rfl)]
  show evaluateWithRate 1000 920 none (some (-3)) = none
  exact evaluateWithRate_raise
    (by simp only [effectiveOffer, floorPrice_1000]; norm_num)
    (by simp only [effectiveOffer]; norm_num)
    (by decide)
    rfl

/-- C10 amended: for a found load and an effective offer in the counter
range, the table access stays in range and a Decision is returned for
every integer round counter between -2 and 3; round 0 selects the final
0.87 multiplier through negative indexing; but for every round counter
at most -3 the access is out of range and the evaluation raises
IndexError. -/
theorem claim_C10_amended (db : List Load) (lid : String) (init : ℚ)
    (neg : Option ℚ) (load : Load) (r rbad : ℤ)
    (hfind : findLoad db lid = some load)
    (hlo : floorPrice load.loadboard_rate ≤ effectiveOffer init neg)
    (hhi : effectiveOffer init neg < load.loadboard_rate * (95/100))
    (hr1 : -2 ≤ r) (hr2 : r ≤ 3) (hbad : rbad ≤ -3) :
    (evaluate_offer db lid init neg (some r)).isSome = true
    ∧ evaluate_offer db lid init neg (some rbad) = none
    ∧ evaluate_offer db lid init neg (some 0)
        = some ⟨"counter",
            some (round2 (max (load.loadboard_rate * (87/100))
              (floorPrice load.loadboard_rate))),
            floorPrice load.loadboard_rate,
            .counterOffer (max (load.loadboard_rate * (87/100))
              (floorPrice load.loadboard_rate))⟩ := by
  have hnlt := not_lt.mpr hlo
  have hnacc := not_le.mpr hhi
  refine ⟨?_, ?_, ?_⟩
  · rw [evaluate_offer_found init neg (some r) hfind]
    interval_cases r
    · rw [evaluateWithRate_table hnlt hnacc (by decide)
        (show pyIdx counter_multipliers (min ((-2 : ℤ) - 1) 2)
          = some (92/100) from rfl)]
      rfl
    · rw [evaluateWithRate_table hnlt hnacc (by decide)
        (show pyIdx counter_multipliers (min ((-1 : ℤ) - 1) 2)
          = some (89/100) from rfl)]
      rfl
    · rw [evaluateWithRate_table hnlt hnacc (by decide)
        (show pyIdx counter_multipliers (min ((0 : ℤ) - 1) 2)
          = some (87/100) from rfl)]
      rfl
    · rw [evaluateWithRate_table hnlt hnacc (by decide)
        (show pyIdx counter_multipliers (min ((1 : ℤ) - 1) 2)
          = some (92/100) from rfl)]
      rfl
    · rw [evaluateWithRate_table hnlt hnacc (by decide)
        (show pyIdx counter_multipliers (min ((2 : ℤ) - 1) 2)
          = some (89/100) from rfl)]
      rfl
    · rw [evaluateWithRate_table hnlt hnacc (by decide)
        (show pyIdx counter_multipliers (min ((3 : ℤ) - 1) 2)
          = some (87/100) from rfl)]
      rfl
  · rw [evaluate_offer_found init neg (some rbad) hfind]
    refine evaluateWithRate_raise hnlt hnacc (by omega) ?_
    rw [min_eq_left (by omega : rbad - 1 ≤ 2)]
    exact pyIdx_out_of_range (by omega)
  · rw [evaluate_offer_found init neg (some 0) hfind]
    exact evaluateWithRate_table hnlt hnacc (by decide)
      (show pyIdx counter_multipliers (min ((0 : ℤ) - 1) 2)
        = some (87/100) from rfl)

/-- C10 witness: at rate 1000 and offer 920, round 2 returns a Decision,
round -5 raises, and round 0 counters at the floor 900 through the final
0.87 multiplier. -/
theorem claim_C10_amended_witness :
    (evaluate_offer dbA "A" 920 none (some 2)).isSome = true
    ∧ evaluate_offer dbA "A" 920 none (some (-5)) = none
    ∧ evaluate_offer dbA "A" 920 none (some 0)
        = some ⟨"counter", some 900, 900, .counterOffer 900⟩ := by
  have hfp : floorPrice loadA.loadboard_rate = 900 := floorPrice_1000
  obtain ⟨h1, h2, h3⟩ := claim_C10_amended dbA "A" 920 none loadA 2 (-5) rfl
    (by rw [hfp]; simp only [effectiveOffer]; norm_num)
    (by simp only [effectiveOffer]; show (920 : ℚ) < 1000 * (95/100); norm_num)
    (by decide) (by decide) (by decide)
  have hm : max (loadA.loadboard_rate * (87/100))
      (floorPrice loadA.loadboard_rate) = 900 := by
    rw [hfp]
    show max ((1000 : ℚ) * (87/100)) 900 = 900
    rw [max_eq_right (by norm_num)]
  rw [hm, hfp, round2_900] at h3
  exact ⟨h1, h2, h3⟩

/-- C3: for every found load with an effective offer in the counter range,
rounds 1, 2 and 3 counter at the table multipliers 0.92, 0.89, 0.87 of the
reference rate, clamped up to the floor and rounded to cents, and round
100 returns exactly the Decision of the clamped 0.87 multiplier: every
round at or past 3 produces the same clamped counter, because both the
final table entry and the default 0.90 branch clamp to the floor. -/
theorem claim_C3_round_multipliers (db : List Load) (lid : String)
    (init : ℚ) (neg : Option ℚ) (load : Load) (rlate : ℤ)
    (hfind : findLoad db lid = some load)
    (hlo : floorPrice load.loadboard_rate ≤ effectiveOffer init neg)
    (hhi : effectiveOffer init neg < load.loadboard_rate * (95/100))
    (hlate : 4 ≤ rlate) :
    evaluate_offer db lid init neg (some 1)
      = some ⟨"counter",
          some (round2 (max (load.loadboard_rate * (92/100))
            (floorPrice load.loadboard_rate))),
          floorPrice load.loadboard_rate,
          .counterOffer (max (load.loadboard_rate * (92/100))
            (floorPrice load.loadboard_rate))⟩
    ∧ evaluate_offer db lid init neg (some 2)
      = some ⟨"counter",
          some (round2 (max (load.loadboard_rate * (89/100))
            (floorPrice load.loadboard_rate))),
          floorPrice load.loadboard_rate,
          .counterOffer (max (load.loadboard_rate * (89/100))
            (floorPrice load.loadboard_rate))⟩
    ∧ evaluate_offer db lid init neg (some 3)
      = some ⟨"counter",
          some (round2 (max (load.loadboard_rate * (87/100))
            (floorPrice load.loadboard_rate))),
          floorPrice load.loadboard_rate,
          .counterOffer (max (load.loadboard_rate * (87/100))
            (floorPrice load.loadboard_rate))⟩
    ∧ evaluate_offer db lid init neg (some 100)
      = some ⟨"counter",
          some (round2 (max (load.loadboard_rate * (87/100))
            (floorPrice load.loadboard_rate))),
          floorPrice load.loadboard_rate,
          .counterOffer (max (load.loadboard_rate * (87/100))
            (floorPrice load.loadboard_rate))⟩
    ∧ evaluate_offer db lid init neg (some rlate)
      = some ⟨"counter",
          some (round2 (max (load.loadboard_rate * (87/100))
            (floorPrice load.loadboard_rate))),
          floorPrice load.loadboard_rate,
          .counterOffer (max (load.loadboard_rate * (87/100))
            (floorPrice load.loadboard_rate))⟩ := by
  have hnlt := not_lt.mpr hlo
  have hnacc := not_le.mpr hhi
  have h9 : load.loadboard_rate * (9/10) ≤ floorPrice load.loadboard_rate := by
    unfold floorPrice
    exact le_max_left _ _
  have hR : (0 : ℚ) < load.loadboard_rate := by linarith
  have e90 : max (load.loadboard_rate * (9/10)) (floorPrice load.loadboard_rate)
      = floorPrice load.loadboard_rate := max_eq_right h9
  have e87 : max (load.loadboard_rate * (87/100)) (floorPrice load.loadboard_rate)
      = floorPrice load.loadboard_rate := by
    refine max_eq_right (le_trans ?_ h9)
    linarith
  refine ⟨?_, ?_, ?_, ?_, ?_⟩ <;> rw [evaluate_offer_found init neg _ hfind]
  · exact evaluateWithRate_table hnlt hnacc (by decide)
      (show pyIdx counter_multipliers (min ((1 : ℤ) - 1) 2)
        = some (92/100) from rfl)
  · exact evaluateWithRate_table hnlt hnacc (by decide)
      (show pyIdx counter_multipliers (min ((2 : ℤ) - 1) 2)
        = some (89/100) from rfl)
  · exact evaluateWithRate_table hnlt hnacc (by decide)
      (show pyIdx counter_multipliers (min ((3 : ℤ) - 1) 2)
        = some (87/100) from rfl)
  · rw [evaluateWithRate_default_late hnlt hnacc (by decide)]
    rw [e90, e87]
  · rw [evaluateWithRate_default_late hnlt hnacc (by omega)]
    rw [e90, e87]

/-- C3 witness: rate 1000, offer 920: rounds 1, 2, 3, 100 counter at
920, 900, 900, 900 (the 0.89 and 0.87 multipliers clamp to the 900
floor, as does the round-100 result). -/
theorem claim_C3_round_multipliers_witness :
    evaluate_offer dbA "A" 920 none (some 1)
      = some ⟨"counter", some 920, 900, .counterOffer 920⟩
    ∧ evaluate_offer dbA "A" 920 none (some 2)
      = some ⟨"counter", some 900, 900, .counterOffer 900⟩
    ∧ evaluate_offer dbA "A" 920 none (some 3)
      = some ⟨"counter", some 900, 900, .counterOffer 900⟩
    ∧ evaluate_offer dbA "A" 920 none (some 100)
      = some ⟨"counter", some 900, 900, .counterOffer 900⟩
    ∧ evaluate_offer dbA "A" 920 none (some 7)
      = some ⟨"counter", some 900, 900, .counterOffer 900⟩ := by
  have hfp : floorPrice loadA.loadboard_rate = 900 := floorPrice_1000
  obtain ⟨h1, h2, h3, h4, h5⟩ := claim_C3_round_multipliers dbA "A" 920 none
    loadA 7 rfl
    (by rw [hfp]; simp only [effectiveOffer]; norm_num)
    (by simp only [effectiveOffer]; show (920 : ℚ) < 1000 * (95/100); norm_num)
    (by decide)
  have hm92 : max (loadA.loadboard_rate * (92/100))
      (floorPrice loadA.loadboard_rate) = 920 := by
    rw [hfp]
    show max ((1000 : ℚ) * (92/100)) 900 = 920
    rw [max_eq_left (by norm_num)]
    norm_num
  have hm89 : max (loadA.loadboard_rate * (89/100))
      (floorPrice loadA.loadboard_rate) = 900 := by
    rw [hfp]
    show max ((1000 : ℚ) * (89/100)) 900 = 900
    rw [max_eq_right (by norm_num)]
  have hm87 : max (loadA.loadboard_rate * (87/100))
      (floorPrice loadA.loadboard_rate) = 900 := by
    rw [hfp]
    show max ((1000 : ℚ) * (87/100)) 900 = 900
    rw [max_eq_right (by norm_num)]
  rw [hm92, hfp, round2_920] at h1
  rw [hm89, hfp, round2_900] at h2
  rw [hm87, hfp, round2_900] at h3
  rw [hm87, hfp, round2_900] at h4
  rw [hm87, hfp, round2_900] at h5
  exact ⟨h1, h2, h3, h4, h5⟩

/-- C6: the match score is additive: an exact case-insensitive equipment
match with no other criteria scores 100 + 10; criterion van against
equipment Dry Van scores 50 + 10; with no equipment criterion, the score
is the sum of a 30-point origin-substring term, a 30-point
destination-substring term and the base 10. -/
theorem claim_C6_additive_scoring (l1 l2 l3 : Load) (e : String)
    (o d : Option String) (h1 : e ≠ "")
    (h2 : pyLower l1.equipment_type = pyLower e)
    (h3 : l2.equipment_type = "Dry Van") :
    calculate_match_score l1 none none (some e) = 110
    ∧ calculate_match_score l2 none none (some "van") = 60
    ∧ calculate_match_score l3 o d none
        = (if truthyS o && pyContains (pyLower l3.origin)
              (pyLower (o.getD "")) then 30 else 0)
          + (if truthyS d && pyContains (pyLower l3.destination)
              (pyLower (d.getD "")) then 30 else 0)
          + 10 := by
  refine ⟨?_, ?_, ?_⟩
  · have he : (e == "") = false := beq_eq_false_iff_ne.mpr h1
    have hbeq : (pyLower l1.equipment_type == pyLower e) = true :=
      beq_iff_eq.mpr h2
    unfold calculate_match_score
    simp only [Option.getD_some, truthyS, he, hbeq, Bool.not_false,
      Bool.and_self, Bool.true_and, Bool.and_true, Bool.false_and,
      if_true, if_false]
    norm_num
  · have c1 : (truthyS (some "van")
        && (pyLower "Dry Van" == pyLower "van")) = false := by decide
    have c2 : (truthyS (some "van")
        && pyContains (pyLower "Dry Van") (pyLower "van")) = true := by decide
    unfold calculate_match_score
    rw [h3]
    simp only [Option.getD_some, truthyS, Bool.false_and, if_false] at c1 c2 ⊢
    simp only [c1, c2, if_true, if_false]
    norm_num
  · have hE1 : (truthyS (none : Option String)
        && (pyLower l3.equipment_type
          == pyLower ((none : Option String).getD ""))) = false := rfl
    have hE2 : (truthyS (none : Option String)
        && pyContains (pyLower l3.equipment_type)
          (pyLower ((none : Option String).getD ""))) = false := rfl
    unfold calculate_match_score
    dsimp only
    split_ifs <;> simp_all

/-- C6 witness: equipment Reefer against Reefer scores 110; van against
Dry Van scores 60; origin chicago and destination dallas against the
Chicago to Dallas load score 30 + 30 + 10 = 70. -/
theorem claim_C6_additive_scoring_witness :
    calculate_match_score loadC none none (some "Reefer") = 110
    ∧ calculate_match_score loadA none none (some "van") = 60
    ∧ calculate_match_score loadA (some "chicago") (some "dallas") none
        = 70 := by
  obtain ⟨h1, h2, h3⟩ := claim_C6_additive_scoring loadC loadA loadA "Reefer"
    (some "chicago") (some "dallas") (by decide) rfl rfl
  refine ⟨h1, h2, ?_⟩
  rw [h3]
  have c1 : (truthyS (some "chicago") && pyContains (pyLower loadA.origin)
      (pyLower ((some "chicago").getD ""))) = true := by decide
  have c2 : (truthyS (some "dallas") && pyContains (pyLower loadA.destination)
      (pyLower ((some "dallas").getD ""))) = true := by decide
  rw [if_pos c1, if_pos c2]
  norm_num

/-- C9: every score contains the unconditional base 10, so the
positive-score filter of search_loads never discards a candidate that
passed the repository filters: the scored candidate list is exactly the
filtered, truncated repository slice with scores attached. -/
theorem claim_C9_positive_filter (db : List Load)
    (o d e pf pt : Option String) (m : ℕ) (load : Load) :
    10 ≤ calculate_match_score load o d e
    ∧ scoredCandidates db o d e pf pt m
        = ((db.filter (fun l => passesFilters l o d e pf pt)).take (m * 2)).map
            (fun l => ⟨l, calculate_match_score l o d e⟩) := by
  have hbase : ∀ l : Load, 10 ≤ calculate_match_score l o d e := by
    intro l
    unfold calculate_match_score
    dsimp only
    split_ifs <;> norm_num
  refine ⟨hbase load, ?_⟩
  unfold scoredCandidates
  refine List.filter_eq_self.mpr ?_
  intro a ha
  rcases List.mem_map.mp ha with ⟨l, _, rfl⟩
  exact decide_eq_true (lt_of_lt_of_le (by norm_num) (hbase l))

/-- C7: search_loads returns a descending, stably sorted sequence of at
most max_results scored loads: the sorted list restricted to any score
value preserves candidate (repository) order; with empty criteria the
result is the available loads in repository order, each at the base
score, truncated to max_results; and an empty candidate set gives the
empty sequence, not an error. -/
theorem claim_C7_search_contract (db : List Load)
    (o d e pf pt : Option String) (m : ℕ) (s : ℚ) :
    SortedDesc (search_loads db o d e pf pt m)
    ∧ (search_loads db o d e pf pt m).length ≤ m
    ∧ (searchSorted db o d e pf pt m).filter (fun x => x.score == s)
        = (scoredCandidates db o d e pf pt m).filter (fun x => x.score == s)
    ∧ search_loads db none none none none none m
        = ((db.filter (fun l => l.status == "available")).map
            (fun l => ⟨l, 10⟩)).take m
    ∧ (scoredCandidates db o d e pf pt m = [] →
        search_loads db o d e pf pt m = []) := by
  refine ⟨?_, ?_, ?_, ?_, ?_⟩
  · exact List.Pairwise.sublist (List.take_sublist _ _) (sortDesc_sorted _)
  · exact List.length_take_le _ _
  · exact filter_sortDesc _ s
  · unfold search_loads searchSorted scoredCandidates
    have hfil : db.filter (fun l => passesFilters l none none none none none)
        = db.filter (fun l => l.status == "available") :=
      List.filter_congr (fun l _ => by simp [passesFilters, truthyS])
    rw [hfil]
    have hmap : ((db.filter (fun l => l.status == "available")).take (m * 2)).map
          (fun l => (⟨l, calculate_match_score l none none none⟩ : ScoredLoad))
        = ((db.filter (fun l => l.status == "available")).take (m * 2)).map
          (fun l => ⟨l, 10⟩) :=
      List.map_congr_left (fun l _ => by rw [score_none])
    rw [hmap]
    have hpos : (((db.filter (fun l => l.status == "available")).take (m * 2)).map
          (fun l => (⟨l, 10⟩ : ScoredLoad))).filter
            (fun sl => decide ((0 : ℚ) < sl.score))
        = ((db.filter (fun l => l.status == "available")).take (m * 2)).map
          (fun l => ⟨l, 10⟩) := by
      refine List.filter_eq_self.mpr ?_
      intro a ha
      rcases List.mem_map.mp ha with ⟨l, _, rfl⟩
      exact decide_eq_true (by norm_num)
    rw [hpos]
    have hconst : ∀ y ∈ ((db.filter (fun l => l.status == "available")).take
        (m * 2)).map (fun l => (⟨l, 10⟩ : ScoredLoad)), y.score = (10 : ℚ) := by
      intro y hy
      rcases List.mem_map.mp hy with ⟨l, _, rfl⟩
      rfl
    rw [sortDesc_const hconst, List.map_take, List.take_take,
      Nat.min_eq_left (by omega)]
  · intro h
    unfold search_loads searchSorted
    rw [h, show sortDesc [] = [] from rfl, List.take_nil]

/-- C7 witness: a one-load repository whose load is booked: the search is
sorted, within bounds, stable, and empty both for empty criteria and for
an origin criterion matching nothing. -/
theorem claim_C7_search_contract_witness :
    SortedDesc (search_loads dbE (some "zzz") none none none none 5)
    ∧ (search_loads dbE (some "zzz") none none none none 5).length ≤ 5
    ∧ (searchSorted dbE (some "zzz") none none none none 5).filter
        (fun x => x.score == (10 : ℚ))
        = (scoredCandidates dbE (some "zzz") none none none none 5).filter
          (fun x => x.score == (10 : ℚ))
    ∧ search_loads dbE none none none none none 5 = []
    ∧ search_loads dbE (some "zzz") none none none none 5 = [] := by
  obtain ⟨h1, h2, h3, h4, h5⟩ :=
    claim_C7_search_contract dbE (some "zzz") none none none none 5 10
  exact ⟨h1, h2, h3, h4.trans rfl, h5 rfl⟩

end HappyRobot
